import Mathlib

/-!
# Verification of dbMonitor (Go) against its design specification

Shallow embedding of the core of the `dbMonitor` repository:

* the alert-throttling logic of `internal/monitor/monitor.go`
  (`shouldSendAlert`, `checkThresholds`, `ResetAlertCounts`, `Close`);
* the connection-creation retry loop with exponential backoff
  (`NewConnection` in the pool-based `connection.go` variant);
* the connection pool (`Pool.GetConnection`, `Pool.createConnection`,
  `Pool.removeConnection`, `Pool.Close`);
* the per-cycle fan-out of `CheckAllInstances`;
* the field assignments of the two `StatsProvider` variants
  (`internal/database/postgresql.go`, `internal/database/mysql.go`).

Go maps over string keys are embedded as association lists with
unique-key discipline made explicit; machine `int` values are embedded
as `Int` (no arithmetic in the modelled code can overflow in a way a
claim depends on); network and database effects (dial attempts, pings,
query results, close errors) are oracles passed in as explicit
parameters; the unbounded retry loop of `NewConnection` is embedded
with explicit fuel, where running out of fuel marks "still blocked in
the retry loop".
-/

namespace DbMon

/-! ## Association lists standing for Go `map[string]V` -/

/-- Lookup in a Go string-keyed map (first matching key wins). -/
def alookup {β : Type} : List (String × β) → String → Option β
  | [], _ => none
  | (k, v) :: rest, n => if k = n then some v else alookup rest n

/-- Map assignment `m[k] = v`: replace the first binding of `k`, or append. -/
def aset {β : Type} : List (String × β) → String → β → List (String × β)
  | [], k, v => [(k, v)]
  | (k', v') :: rest, k, v =>
      if k' = k then (k, v) :: rest else (k', v') :: aset rest k v

/-- Map deletion `delete(m, k)`: drop the first binding of `k`. -/
def aerase {β : Type} : List (String × β) → String → List (String × β)
  | [], _ => []
  | (k', v') :: rest, k => if k' = k then rest else (k', v') :: aerase rest k

theorem alookup_aset_self {β : Type} (m : List (String × β)) (k : String) (v : β) :
    alookup (aset m k v) k = some v := by
  induction m with
  | nil => simp [aset, alookup]
  | cons p rest ih =>
      obtain ⟨k', v'⟩ := p
      by_cases h : k' = k
      · simp [aset, alookup, h]
      · simp [aset, alookup, h, ih]

theorem alookup_aset_ne {β : Type} (m : List (String × β)) (k k' : String) (v : β)
    (h : k' ≠ k) : alookup (aset m k v) k' = alookup m k' := by
  induction m with
  | nil => simp [aset, alookup, h.symm]
  | cons p rest ih =>
      obtain ⟨k₀, v₀⟩ := p
      by_cases h0 : k₀ = k
      · subst h0
        simp [aset, alookup, h.symm]
      · by_cases h1 : k₀ = k'
        · simp [aset, alookup, h0, h1, h]
        · simp [aset, alookup, h0, h1, ih]

/-! ## Monitor data model (`internal/monitor/monitor.go`, `internal/config/config.go`) -/

/-- `config.ThresholdConfig`. -/
structure ThresholdConfig where
  activeConnections : Int
  inactiveConnections : Int
  totalConnections : Int
  deriving Repr, DecidableEq

/-- `database.SessionStats` (the capture timestamp, produced by `time.Now()`,
is carried opaquely as a string). -/
structure SessionStats where
  active : Int
  inactive : Int
  idle : Int
  idleInTxn : Int
  waiting : Int
  total : Int
  databaseName : String
  timestamp : String
  deriving Repr, DecidableEq

/-- `monitor.Alert` (the `Timestamp` field, produced by `time.Now()`, is
omitted: no claim concerns it). -/
structure Alert where
  databaseName : String
  alertType : String
  message : String
  value : Int
  threshold : Int
  deriving Repr, DecidableEq

/-- The monitor's `alertCounts map[string]int`: counters start at 0 and are
only ever incremented, so they are embedded as naturals. -/
abbrev AlertCounts := List (String × Nat)

/-- `dm.alertCounts[key]` with Go's zero-value default. -/
def lookupCount (m : AlertCounts) (k : String) : Nat :=
  (alookup m k).getD 0

theorem lookupCount_aset_self (m : AlertCounts) (k : String) (v : Nat) :
    lookupCount (aset m k v) k = v := by
  simp [lookupCount, alookup_aset_self]

theorem lookupCount_aset_ne (m : AlertCounts) (k k' : String) (v : Nat)
    (h : k' ≠ k) : lookupCount (aset m k v) k' = lookupCount m k' := by
  simp [lookupCount, alookup_aset_ne m k k' v h]

/-- `DatabaseMonitor.shouldSendAlert` (monitor.go:167-182).  Looks up the
counter for `databaseName + "_" + alertType`, decides, and increments the
counter on both branches.  Returns the decision together with the updated
counter map. -/
def shouldSendAlert (counts : AlertCounts) (frequency : Int)
    (databaseName alertType : String) : Bool × AlertCounts :=
  let key := databaseName ++ "_" ++ alertType
  let count := lookupCount counts key
  if count = 0 ∨ (frequency > 0 ∧ (count : Int) % frequency = 0) then
    (true, aset counts key (count + 1))
  else
    (false, aset counts key (count + 1))

/-- `DatabaseMonitor.checkThresholds` (monitor.go:121-165).  Returns the
alerts handed to `sendAlert` in order, together with the updated counter
map.  The `HIGH_TOTAL_CONNECTIONS` branch reproduces the source's nested
double `shouldSendAlert` guard (monitor.go:152-153). -/
def checkThresholds (thresholds : ThresholdConfig) (frequency : Int)
    (counts : AlertCounts) (stats : SessionStats) : List Alert × AlertCounts :=
  let alertKey := stats.databaseName
  let activeStep :=
    if stats.active > thresholds.activeConnections then
      let r := shouldSendAlert counts frequency alertKey "HIGH_ACTIVE_CONNECTIONS"
      (if r.1 then
        [⟨stats.databaseName, "HIGH_ACTIVE_CONNECTIONS",
          "High number of active connections detected",
          stats.active, thresholds.activeConnections⟩]
       else [], r.2)
    else ([], counts)
  let inactiveStep :=
    if stats.inactive > thresholds.inactiveConnections then
      let r := shouldSendAlert activeStep.2 frequency alertKey "HIGH_INACTIVE_CONNECTIONS"
      (if r.1 then
        [⟨stats.databaseName, "HIGH_INACTIVE_CONNECTIONS",
          "High number of inactive connections detected",
          stats.inactive, thresholds.inactiveConnections⟩]
       else [], r.2)
    else ([], activeStep.2)
  let totalStep :=
    if stats.total > thresholds.totalConnections then
      let r1 := shouldSendAlert inactiveStep.2 frequency alertKey "HIGH_TOTAL_CONNECTIONS"
      if r1.1 then
        let r2 := shouldSendAlert r1.2 frequency alertKey "HIGH_TOTAL_CONNECTIONS"
        (if r2.1 then
          [⟨stats.databaseName, "HIGH_TOTAL_CONNECTIONS",
            "High total number of connections detected",
            stats.total, thresholds.totalConnections⟩]
         else [], r2.2)
      else ([], r1.2)
    else ([], inactiveStep.2)
  (activeStep.1 ++ inactiveStep.1 ++ totalStep.1, totalStep.2)

/-- `DatabaseMonitor.ResetAlertCounts` (monitor.go:256-261): replaces the
counter map by a fresh empty map. -/
def resetAlertCounts (_counts : AlertCounts) : AlertCounts := []

/-! ## Claims C1, C2, C7: alert throttling -/

/-- C2: each call of the throttle decision for key `(database, alert-type)`
returns `true` exactly when the current counter `count` satisfies
`count == 0` or (`frequency > 0` and `count mod frequency == 0`), and on
every call — whichever way it decides — the stored counter for that key
becomes `count + 1` while every other key's counter is untouched. -/
theorem shouldSendAlert_decision_and_increment
    (counts : AlertCounts) (frequency : Int) (db aty k : String) :
    ((shouldSendAlert counts frequency db aty).1 = true ↔
      (lookupCount counts (db ++ "_" ++ aty) = 0 ∨
        (frequency > 0 ∧
          ((lookupCount counts (db ++ "_" ++ aty) : Int) % frequency = 0)))) ∧
    lookupCount (shouldSendAlert counts frequency db aty).2 k =
      (if k = db ++ "_" ++ aty then lookupCount counts (db ++ "_" ++ aty) + 1
       else lookupCount counts k) := by
  unfold shouldSendAlert
  by_cases hc : lookupCount counts (db ++ "_" ++ aty) = 0 ∨
      (frequency > 0 ∧ ((lookupCount counts (db ++ "_" ++ aty) : Int) % frequency = 0))
  · rw [if_pos hc]
    refine ⟨iff_of_true rfl hc, ?_⟩
    by_cases hk : k = db ++ "_" ++ aty
    · subst hk; rw [if_pos rfl]; exact lookupCount_aset_self _ _ _
    · rw [if_neg hk]; exact lookupCount_aset_ne _ _ _ _ hk
  · rw [if_neg hc]
    refine ⟨iff_of_false (by simp) hc, ?_⟩
    by_cases hk : k = db ++ "_" ++ aty
    · subst hk; rw [if_pos rfl]; exact lookupCount_aset_self _ _ _
    · rw [if_neg hk]; exact lookupCount_aset_ne _ _ _ _ hk

/-- C1 (failing input): with alert frequency 3, an empty counter map and a
first-ever breach of the total-connections threshold (total 60 > 50), the
duplicated nested guard at monitor.go:152-153 consumes two counter ticks
(0 then 1); the inner guard sees count 1, `1 mod 3 ≠ 0`, so *no*
`HIGH_TOTAL_CONNECTIONS` alert is emitted on the first detection and the
counter lands at 2 — while the same first-breach situation for the
active-connections threshold does emit.  This evaluates `checkThresholds`
at that input. -/
theorem checkThresholds_total_first_breach_suppressed :
    (checkThresholds ⟨100, 100, 50⟩ 3 []
        ⟨0, 0, 0, 0, 0, 60, "db1", ""⟩).1 = [] ∧
    lookupCount (checkThresholds ⟨100, 100, 50⟩ 3 []
        ⟨0, 0, 0, 0, 0, 60, "db1", ""⟩).2 "db1_HIGH_TOTAL_CONNECTIONS" = 2 ∧
    (checkThresholds ⟨100, 100, 50⟩ 3 []
        ⟨160, 0, 0, 0, 0, 0, "db1", ""⟩).1 =
      [⟨"db1", "HIGH_ACTIVE_CONNECTIONS",
        "High number of active connections detected", 160, 100⟩] := by
  decide

/-- C7 (failing input): with frequency 3, one total-connections breach is
detected and suppressed by the throttle (a previously-throttled key,
counter at 2); `ResetAlertCounts` empties the counter map; yet the next
total-connections breach after the reset is *again* emitted without an
alert, because the duplicated nested guard needs `1 mod 3 = 0` on its
inner call.  This evaluates the detect–reset–detect sequence. -/
theorem resetAlertCounts_total_rebreach_suppressed :
    (checkThresholds ⟨100, 100, 50⟩ 3 []
        ⟨0, 0, 0, 0, 0, 60, "db1", ""⟩).1 = [] ∧
    resetAlertCounts (checkThresholds ⟨100, 100, 50⟩ 3 []
        ⟨0, 0, 0, 0, 0, 60, "db1", ""⟩).2 = [] ∧
    (checkThresholds ⟨100, 100, 50⟩ 3
        (resetAlertCounts (checkThresholds ⟨100, 100, 50⟩ 3 []
          ⟨0, 0, 0, 0, 0, 60, "db1", ""⟩).2)
        ⟨0, 0, 0, 0, 0, 60, "db1", ""⟩).1 = [] := by
  decide

/-! ## Connection creation with retry/backoff
(`NewConnection`, pool-based variant, src/unnamed/part_001:395-446) -/

/-- `config.PoolConfig`; backoff fields are in seconds (the source
multiplies them uniformly by `time.Second`). -/
structure PoolConfig where
  maxOpenConns : Int
  maxIdleConns : Int
  connMaxLifetime : Int
  connMaxIdleTime : Int
  healthCheckInterval : Int
  backoffInitial : Int
  backoffMax : Int
  deriving Repr, DecidableEq

/-- The `switch cfg.Type` of `NewConnection` accepts exactly these two
engines; the two cases differ only in the dialer and stats provider
bound, both of which the embedding abstracts behind the dial oracle. -/
def isSupported (dbType : String) : Bool :=
  dbType == "mysql" || dbType == "postgresql"

/-- Outcome of the `for { switch ... }` retry loop of `NewConnection`. -/
inductive LoopResult where
  /-- dial attempt `attempt` returned `err == nil` and the loop broke -/
  | success (attempt : Nat)
  /-- `default:` case — unsupported engine, immediate return -/
  | unsupported
  /-- embedding fuel exhausted with the loop still retrying -/
  | outOfFuel
  deriving Repr, DecidableEq

/-- The retry loop of `NewConnection` (src/unnamed/part_001:404-426).
`dialOk n` is the oracle outcome of the `n`-th dial attempt; `backoff`
starts at the configured initial and after every failed attempt the
source sleeps `backoff`, doubles it, and caps the double at `maxBackoff`.
Returns the loop outcome together with the list of delays slept, in
order. -/
def retryLoop (dbType : String) (dialOk : Nat → Bool)
    (backoff maxBackoff : Int) (attempt : Nat) : Nat → LoopResult × List Int
  | 0 => (.outOfFuel, [])
  | fuel + 1 =>
    if isSupported dbType then
      if dialOk attempt then (.success attempt, [])
      else
        let doubled := backoff * 2
        let next := if doubled > maxBackoff then maxBackoff else doubled
        let rest := retryLoop dbType dialOk next maxBackoff (attempt + 1) fuel
        (rest.1, backoff :: rest.2)
    else (.unsupported, [])

/-- Error results of `NewConnection`. -/
inductive ConnError where
  /-- `unsupported database type` -/
  | unsupportedType
  /-- `failed to configure connection pool` (dead in the source:
  `configureConnectionPool` always returns `nil`) -/
  | poolConfigFailed
  /-- `connection test failed`: the `db.PingContext` after the loop -/
  | connectionTestFailed
  deriving Repr, DecidableEq

/-- Result of `NewConnection` under bounded fuel. -/
inductive NewConnResult where
  | ok (attempt : Nat)
  | err (e : ConnError)
  /-- still inside the retry loop when the fuel ran out -/
  | blocked
  deriving Repr, DecidableEq

/-- `configureConnectionPool` (src/unnamed/part_001:490-497): sets the
four handle limits on the `sql.DB` and unconditionally returns `nil`. -/
def configureConnectionPool (_poolCfg : PoolConfig) : Option String := none

/-- `NewConnection` (src/unnamed/part_001:395-446): run the retry loop
from the configured initial backoff, then configure the pool (always
succeeds) and run the final verification ping, whose oracle outcome is
`finalPingOk`.  Returns the result and the slept backoff delays. -/
def newConnection (dbType : String) (dialOk : Nat → Bool) (finalPingOk : Bool)
    (poolCfg : PoolConfig) (fuel : Nat) : NewConnResult × List Int :=
  let r := retryLoop dbType dialOk poolCfg.backoffInitial poolCfg.backoffMax 0 fuel
  match r.1 with
  | .outOfFuel => (.blocked, r.2)
  | .unsupported => (.err .unsupportedType, r.2)
  | .success n =>
    match configureConnectionPool poolCfg with
    | some _ => (.err .poolConfigFailed, r.2)
    | none => if finalPingOk then (.ok n, r.2) else (.err .connectionTestFailed, r.2)

/-- A sample pool configuration for concrete evaluations. -/
def pcEx : PoolConfig := ⟨10, 5, 3600, 600, 30, 1, 4⟩

theorem retryLoop_unsupported_of_result (dbType : String) (dialOk : Nat → Bool) :
    ∀ (fuel : Nat) (b maxB : Int) (attempt : Nat),
      (retryLoop dbType dialOk b maxB attempt fuel).1 = .unsupported →
      isSupported dbType = false := by
  intro fuel
  induction fuel with
  | zero => intro b maxB attempt h; simp [retryLoop] at h
  | succ n ih =>
      intro b maxB attempt h
      by_cases hs : isSupported dbType = true
      · by_cases hd : dialOk attempt = true
        · simp [retryLoop, hs, hd] at h
        · simp only [retryLoop, hs, if_true, hd, if_false, Bool.false_eq_true] at h
          exact ih _ _ _ h
      · simpa using hs

theorem retryLoop_out_of_fuel_of_dial_never (dbType : String) (dialOk : Nat → Bool)
    (hs : isSupported dbType = true) (hd : ∀ n, dialOk n = false) :
    ∀ (fuel : Nat) (b maxB : Int) (attempt : Nat),
      (retryLoop dbType dialOk b maxB attempt fuel).1 = .outOfFuel := by
  intro fuel
  induction fuel with
  | zero => intro b maxB attempt; rfl
  | succ n ih => intro b maxB attempt; simp [retryLoop, hs, hd, ih]

theorem newConnection_snd (dbType : String) (dialOk : Nat → Bool)
    (finalPingOk : Bool) (poolCfg : PoolConfig) (fuel : Nat) :
    (newConnection dbType dialOk finalPingOk poolCfg fuel).2 =
      (retryLoop dbType dialOk poolCfg.backoffInitial poolCfg.backoffMax 0 fuel).2 := by
  unfold newConnection configureConnectionPool
  cases h : (retryLoop dbType dialOk poolCfg.backoffInitial poolCfg.backoffMax 0 fuel).1 <;>
    simp [h]
  split <;> rfl

theorem newConnection_blocked_of_dial_never (t : String) (dial : Nat → Bool)
    (ping : Bool) (pc : PoolConfig) (fuel : Nat) (hs : isSupported t = true)
    (hd : ∀ n, dial n = false) :
    (newConnection t dial ping pc fuel).1 = .blocked := by
  have hr := retryLoop_out_of_fuel_of_dial_never t dial hs hd fuel
    pc.backoffInitial pc.backoffMax 0
  unfold newConnection
  simp only [hr]

theorem newConnection_first_dial_ok (t : String) (dial : Nat → Bool) (ping : Bool)
    (pc : PoolConfig) (fuel : Nat) (hs : isSupported t = true) (hd : dial 0 = true)
    (hf : 1 ≤ fuel) :
    (newConnection t dial ping pc fuel).1 =
      if ping then .ok 0 else .err .connectionTestFailed := by
  obtain ⟨m, rfl⟩ : ∃ m, fuel = m + 1 := ⟨fuel - 1, by omega⟩
  have hloop : retryLoop t dial pc.backoffInitial pc.backoffMax 0 (m + 1) =
      (.success 0, []) := by
    simp [retryLoop, hs, hd]
  unfold newConnection configureConnectionPool
  simp only [hloop]
  cases ping <;> simp

/-- C3 (amended): transient dial failures are retried with backoff and are
never surfaced: whenever `NewConnection` returns an error, it is either
the unsupported-engine error (and the type really is unsupported) or the
post-connection verification ping failed; and for a supported engine whose
dial never succeeds, `NewConnection` is still blocked inside the retry
loop at every fuel bound — it never returns at all. -/
theorem newConnection_dial_failures_never_surfaced
    (dbType : String) (dialOk : Nat → Bool) (finalPingOk : Bool)
    (poolCfg : PoolConfig) (fuel : Nat) (e : ConnError) (ds : List Int) :
    (newConnection dbType dialOk finalPingOk poolCfg fuel = (.err e, ds) →
      (e = .unsupportedType ∧ isSupported dbType = false) ∨
      (e = .connectionTestFailed ∧ finalPingOk = false)) ∧
    (isSupported dbType = true → (∀ n, dialOk n = false) →
      (newConnection dbType dialOk finalPingOk poolCfg fuel).1 = .blocked) := by
  constructor
  · intro h
    unfold newConnection configureConnectionPool at h
    cases hr : (retryLoop dbType dialOk poolCfg.backoffInitial poolCfg.backoffMax 0 fuel).1 with
    | success n =>
        simp only [hr] at h
        by_cases hp : finalPingOk = true
        · simp [hp] at h
        · have hp' : finalPingOk = false := by simpa using hp
          simp only [hp', Bool.false_eq_true, if_false, Prod.mk.injEq,
            NewConnResult.err.injEq] at h
          exact Or.inr ⟨h.1.symm, hp'⟩
    | unsupported =>
        simp only [hr, Prod.mk.injEq, NewConnResult.err.injEq] at h
        exact Or.inl ⟨h.1.symm, retryLoop_unsupported_of_result dbType dialOk fuel _ _ _ hr⟩
    | outOfFuel =>
        simp only [hr] at h
        simp at h
  · intro hs hd
    exact newConnection_blocked_of_dial_never dbType dialOk finalPingOk poolCfg fuel hs hd

/-- C3 (counterexample to the claim as stated): for the supported engine
type `"mysql"`, with the dial succeeding immediately but the
post-connection verification ping failing, `NewConnection` returns an
error — so an unsupported engine type is *not* the only input on which it
returns an error rather than blocking until success. -/
theorem newConnection_ping_failure_errors_on_supported_engine :
    (newConnection "mysql" (fun _ => true) false pcEx 1).1 =
      .err .connectionTestFailed ∧
    isSupported "mysql" = true := by
  decide

theorem newConnection_dial_failures_never_surfaced_witness :
    (newConnection "postgresql" (fun _ => false) true pcEx 5).1 = .blocked :=
  (newConnection_dial_failures_never_surfaced "postgresql" (fun _ => false) true pcEx 5
    .unsupportedType []).2 (by decide) (fun _ => rfl)

theorem retryLoop_delays_monotone_bounded (dbType : String) (dialOk : Nat → Bool)
    (maxB : Int) :
    ∀ (fuel : Nat) (b : Int) (attempt : Nat), 0 ≤ b → b ≤ maxB →
      List.Pairwise (· ≤ ·) (retryLoop dbType dialOk b maxB attempt fuel).2 ∧
      ∀ d ∈ (retryLoop dbType dialOk b maxB attempt fuel).2, b ≤ d ∧ d ≤ maxB := by
  intro fuel
  induction fuel with
  | zero => intro b attempt h0 h1; simp [retryLoop]
  | succ n ih =>
      intro b attempt h0 h1
      by_cases hs : isSupported dbType = true
      · by_cases hd : dialOk attempt = true
        · simp [retryLoop, hs, hd]
        · have hb1 : b ≤ (if b * 2 > maxB then maxB else b * 2) := by
            split <;> omega
          have hb2 : 0 ≤ (if b * 2 > maxB then maxB else b * 2) := by
            split <;> omega
          have hb3 : (if b * 2 > maxB then maxB else b * 2) ≤ maxB := by
            split <;> omega
          obtain ⟨ihp, ihb⟩ := ih (if b * 2 > maxB then maxB else b * 2) (attempt + 1) hb2 hb3
          constructor
          · simp only [retryLoop, hs, if_true, hd, Bool.false_eq_true, if_false]
            refine List.pairwise_cons.mpr ⟨?_, ihp⟩
            intro d hdmem
            exact le_trans hb1 (ihb d hdmem).1
          · simp only [retryLoop, hs, if_true, hd, Bool.false_eq_true, if_false]
            intro d hdmem
            rcases List.mem_cons.mp hdmem with h | h
            · exact ⟨le_of_eq h.symm, h ▸ h1⟩
            · exact ⟨le_trans hb1 (ihb d h).1, (ihb d h).2⟩
      · simp [retryLoop, hs]

/-- C8 (amended): provided the configured initial backoff is nonnegative
and does not exceed the configured maximum, the sequence of backoff
delays slept by `NewConnection` over any run of consecutive dial failures
is non-decreasing, starts at the configured initial, and never exceeds
the configured maximum.  (Without that proviso the first delay is the
uncapped configured initial and may exceed the maximum.) -/
theorem backoff_delays_monotone_bounded
    (dbType : String) (dialOk : Nat → Bool) (finalPingOk : Bool)
    (poolCfg : PoolConfig) (fuel : Nat)
    (h0 : 0 ≤ poolCfg.backoffInitial)
    (h1 : poolCfg.backoffInitial ≤ poolCfg.backoffMax) :
    List.Pairwise (· ≤ ·) (newConnection dbType dialOk finalPingOk poolCfg fuel).2 ∧
    ∀ d ∈ (newConnection dbType dialOk finalPingOk poolCfg fuel).2,
      poolCfg.backoffInitial ≤ d ∧ d ≤ poolCfg.backoffMax := by
  rw [newConnection_snd]
  exact retryLoop_delays_monotone_bounded dbType dialOk poolCfg.backoffMax fuel
    poolCfg.backoffInitial 0 h0 h1

theorem backoff_delays_monotone_bounded_witness :
    List.Pairwise (· ≤ ·) (newConnection "mysql" (fun _ => false) true pcEx 4).2 :=
  (backoff_delays_monotone_bounded "mysql" (fun _ => false) true pcEx 4
    (by decide) (by decide)).1

/-- C8 (counterexample to the claim as stated): with configured initial
backoff 5 and maximum 2 (the loader in `internal/config/config.go`
validates neither field), the slept delay sequence for three consecutive
dial failures is `[5, 2, 2]` — its first element is the uncapped initial,
which exceeds the configured maximum, and the sequence decreases. -/
theorem backoff_first_delay_exceeds_max :
    (newConnection "mysql" (fun _ => false) true ⟨10, 5, 3600, 600, 30, 5, 2⟩ 3).2 =
      [5, 2, 2] ∧
    ¬ List.Pairwise (· ≤ ·)
      (newConnection "mysql" (fun _ => false) true ⟨10, 5, 3600, 600, 30, 5, 2⟩ 3).2 ∧
    (5 : Int) ∈
      (newConnection "mysql" (fun _ => false) true ⟨10, 5, 3600, 600, 30, 5, 2⟩ 3).2 ∧
    ¬ ((5 : Int) ≤ 2) := by
  refine ⟨by decide, ?_, by decide, by decide⟩
  intro h
  rw [show (newConnection "mysql" (fun _ => false) true ⟨10, 5, 3600, 600, 30, 5, 2⟩ 3).2 =
      [5, 2, 2] from by decide] at h
  have := (List.pairwise_cons.mp h).1 2 (by simp)
  exact absurd this (by decide)

/-! ## Claim C4: the `CheckAllInstances` fan-out (monitor.go:50-119)

`CheckAllInstances` runs one task per configured database; the tasks are
joined with `g.Wait()` and do not cancel one another (plain
`errgroup.Group`, no shared cancellation context).  Each task
(`checkInstance`, monitor.go:81-119) acquires a connection through the
pool, then fetches stats; a connection error synthesizes one
`CONNECTION_ERROR` alert, a query error one `QUERY_ERROR` alert, and a
success stores the stats in the last-stats cache.

The tasks are *not* independent: on an initially empty pool every task
falls through to `Pool.createConnection`, whose exclusive critical
section (`p.mu.Lock()`, src/unnamed/part_001:156) is held across the
whole `NewConnection` call — including its unbounded dial-retry loop —
so connection creation is serialized across all databases, in whatever
order the scheduler grants the lock.  The embedding therefore takes the
*schedule*: the list of databases in the order their tasks enter the
creation critical section.  A creation that never returns holds the lock
forever, starving every task scheduled after it; a task whose creation
has finished runs its statistics query outside the lock. -/

/-- The oracles describing one configured database's environment during a
cycle: its config name/type, the dial outcomes, the post-connection
verification ping, and the statistics query result (`none` = query
error). -/
structure DbEnv where
  name : String
  dbType : String
  dialOk : Nat → Bool
  finalPingOk : Bool
  statsResult : Option SessionStats

/-- Outcome of one database's `checkInstance` task. -/
inductive CheckOutcome where
  /-- stats fetched and stored in the last-stats cache -/
  | okStats (s : SessionStats)
  /-- `GetConnection` failed: one `CONNECTION_ERROR` alert candidate -/
  | connError
  /-- stats query failed: one `QUERY_ERROR` alert candidate -/
  | queryError
  /-- task unfinished at this fuel bound: still inside the connection
  retry loop, or starved behind the exclusive creation lock that a
  still-retrying creation holds -/
  | blocked
  deriving Repr, DecidableEq

/-- `DatabaseMonitor.CheckAllInstances` (monitor.go:50-79) on an
initially empty pool, for one serialization order of the creation
critical section.  Each task's connection creation runs under the
exclusive pool lock; if it returns, the task's outcome follows
`checkInstance` (monitor.go:81-119) and the lock passes to the next
task, whose creation proceeds likewise; if it never returns (`blocked`),
every later task starves on the lock and is `blocked` too. -/
def checkAllInstancesSerialized (poolCfg : PoolConfig) (fuel : Nat) :
    List DbEnv → List (String × CheckOutcome)
  | [] => []
  | e :: rest =>
    match (newConnection e.dbType e.dialOk e.finalPingOk poolCfg fuel).1 with
    | .blocked =>
        (e.name, CheckOutcome.blocked) ::
          rest.map (fun x => (x.name, CheckOutcome.blocked))
    | .err _ =>
        (e.name, CheckOutcome.connError) ::
          checkAllInstancesSerialized poolCfg fuel rest
    | .ok _ =>
        (match e.statsResult with
         | none => (e.name, CheckOutcome.queryError)
         | some s => (e.name, CheckOutcome.okStats { s with databaseName := e.name })) ::
          checkAllInstancesSerialized poolCfg fuel rest

/-- Number of `CONNECTION_ERROR` alert candidates of a cycle. -/
def connErrorCount (results : List (String × CheckOutcome)) : Nat :=
  (results.filter (fun p => p.2 == CheckOutcome.connError)).length

/-- Database names whose statistics were stored in the last-stats cache. -/
def storedStatsNames (results : List (String × CheckOutcome)) : List String :=
  results.filterMap (fun p =>
    match p.2 with
    | .okStats _ => some p.1
    | _ => none)

/-- Whether some task is still unfinished (so `g.Wait()` has not returned). -/
def anyBlocked (results : List (String × CheckOutcome)) : Bool :=
  results.any (fun p => p.2 == CheckOutcome.blocked)

/-- A database whose dial succeeds at once, whose verification ping
passes, and whose statistics query succeeds. -/
def envHealthy (e : DbEnv) : Prop :=
  isSupported e.dbType = true ∧ e.dialOk 0 = true ∧ e.finalPingOk = true ∧
    e.statsResult.isSome = true

theorem serialized_healthy_cons (pc : PoolConfig) (fuel : Nat) (e : DbEnv)
    (rest : List DbEnv) (he : envHealthy e) (hf : 1 ≤ fuel) :
    ∃ s, checkAllInstancesSerialized pc fuel (e :: rest) =
      (e.name, CheckOutcome.okStats s) ::
        checkAllInstancesSerialized pc fuel rest := by
  obtain ⟨hs, hd, hp, hsome⟩ := he
  obtain ⟨s0, hs0⟩ := Option.isSome_iff_exists.mp hsome
  refine ⟨{ s0 with databaseName := e.name }, ?_⟩
  have hok : (newConnection e.dbType e.dialOk e.finalPingOk pc fuel).1 = .ok 0 := by
    rw [newConnection_first_dial_ok e.dbType e.dialOk e.finalPingOk pc fuel hs hd hf]
    simp [hp]
  simp only [checkAllInstancesSerialized]
  rw [hok]
  simp [hs0]

theorem serialized_ping_failure_cons (pc : PoolConfig) (fuel : Nat) (bad : DbEnv)
    (rest : List DbEnv) (hbs : isSupported bad.dbType = true)
    (hd : bad.dialOk 0 = true) (hp : bad.finalPingOk = false) (hf : 1 ≤ fuel) :
    checkAllInstancesSerialized pc fuel (bad :: rest) =
      (bad.name, CheckOutcome.connError) ::
        checkAllInstancesSerialized pc fuel rest := by
  have herr : (newConnection bad.dbType bad.dialOk bad.finalPingOk pc fuel).1 =
      .err .connectionTestFailed := by
    rw [newConnection_first_dial_ok bad.dbType bad.dialOk bad.finalPingOk pc fuel hbs hd hf]
    simp [hp]
  simp only [checkAllInstancesSerialized]
  rw [herr]

theorem serialized_dial_never_cons (pc : PoolConfig) (fuel : Nat) (bad : DbEnv)
    (rest : List DbEnv) (hbs : isSupported bad.dbType = true)
    (hd : ∀ n, bad.dialOk n = false) :
    checkAllInstancesSerialized pc fuel (bad :: rest) =
      (bad.name, CheckOutcome.blocked) ::
        rest.map (fun x => (x.name, CheckOutcome.blocked)) := by
  have hb := newConnection_blocked_of_dial_never bad.dbType bad.dialOk
    bad.finalPingOk pc fuel hbs hd
  simp only [checkAllInstancesSerialized]
  rw [hb]

theorem serialized_healthy_prefix (pc : PoolConfig) (fuel : Nat)
    (l rest : List DbEnv) (hl : ∀ e ∈ l, envHealthy e) (hf : 1 ≤ fuel) :
    connErrorCount (checkAllInstancesSerialized pc fuel (l ++ rest)) =
      connErrorCount (checkAllInstancesSerialized pc fuel rest) ∧
    storedStatsNames (checkAllInstancesSerialized pc fuel (l ++ rest)) =
      l.map DbEnv.name ++ storedStatsNames (checkAllInstancesSerialized pc fuel rest) ∧
    anyBlocked (checkAllInstancesSerialized pc fuel (l ++ rest)) =
      anyBlocked (checkAllInstancesSerialized pc fuel rest) := by
  induction l with
  | nil => simp
  | cons e l2 ih =>
      obtain ⟨s, heq⟩ := serialized_healthy_cons pc fuel e (l2 ++ rest)
        (hl e (by simp)) hf
      obtain ⟨ih1, ih2, ih3⟩ := ih (fun x hx => hl x (by simp [hx]))
      rw [List.cons_append, heq]
      refine ⟨?_, ?_, ?_⟩
      · simpa [connErrorCount] using ih1
      · simpa [storedStatsNames] using ih2
      · simpa [anyBlocked] using ih3

theorem serialized_healthy_list (pc : PoolConfig) (fuel : Nat)
    (l : List DbEnv) (hl : ∀ e ∈ l, envHealthy e) (hf : 1 ≤ fuel) :
    connErrorCount (checkAllInstancesSerialized pc fuel l) = 0 ∧
    storedStatsNames (checkAllInstancesSerialized pc fuel l) = l.map DbEnv.name ∧
    anyBlocked (checkAllInstancesSerialized pc fuel l) = false := by
  have h := serialized_healthy_prefix pc fuel l [] hl hf
  simpa [checkAllInstancesSerialized, connErrorCount, storedStatsNames,
    anyBlocked] using h

theorem blocked_map_facts (l : List DbEnv) :
    connErrorCount (l.map (fun x => (x.name, CheckOutcome.blocked))) = 0 ∧
    storedStatsNames (l.map (fun x => (x.name, CheckOutcome.blocked))) = [] := by
  induction l with
  | nil => simp [connErrorCount, storedStatsNames]
  | cons e rest ih =>
      obtain ⟨ih1, ih2⟩ := ih
      refine ⟨?_, ?_⟩
      · simp [connErrorCount]
      · simp [storedStatsNames]

/-- C4 (amended): `CheckAllInstances` never cancels sibling tasks, but
connection creation is serialized through the pool's one exclusive lock,
held across `NewConnection`'s unbounded retry loop.  With N-1 healthy
databases and one failing one, in every serialization order (`pre` the
healthy databases granted the creation lock before the failing one,
`post` those after): when the failure is *surfaced by `NewConnection`*
(the verification ping failing after a successful dial) every creation
terminates, so all N-1 siblings' statistics are stored, exactly one
`CONNECTION_ERROR` alert candidate is produced and no task is left
unfinished; when instead the dial fails *persistently*, the creation
retries forever while holding the lock — zero `CONNECTION_ERROR`
candidates are produced, only the siblings serialized before the failing
database store statistics (those after it starve on the lock), and some
task is still unfinished at every fuel bound, so the cycle's join never
completes (there is no per-database timeout on connection creation). -/
theorem checkAllInstances_one_failure
    (poolCfg : PoolConfig) (fuel : Nat) (pre post : List DbEnv) (bad : DbEnv)
    (hpre : ∀ e ∈ pre, envHealthy e) (hpost : ∀ e ∈ post, envHealthy e)
    (hfuel : 1 ≤ fuel) (hbs : isSupported bad.dbType = true) :
    ((bad.dialOk 0 = true ∧ bad.finalPingOk = false) →
      connErrorCount (checkAllInstancesSerialized poolCfg fuel (pre ++ bad :: post)) = 1 ∧
      storedStatsNames (checkAllInstancesSerialized poolCfg fuel (pre ++ bad :: post)) =
        pre.map DbEnv.name ++ post.map DbEnv.name ∧
      anyBlocked (checkAllInstancesSerialized poolCfg fuel (pre ++ bad :: post)) = false) ∧
    ((∀ n, bad.dialOk n = false) →
      connErrorCount (checkAllInstancesSerialized poolCfg fuel (pre ++ bad :: post)) = 0 ∧
      storedStatsNames (checkAllInstancesSerialized poolCfg fuel (pre ++ bad :: post)) =
        pre.map DbEnv.name ∧
      anyBlocked (checkAllInstancesSerialized poolCfg fuel (pre ++ bad :: post)) = true) := by
  obtain ⟨hc1, hn1, hb1⟩ := serialized_healthy_prefix poolCfg fuel pre (bad :: post)
    hpre hfuel
  constructor
  · rintro ⟨hd, hp⟩
    have htail := serialized_ping_failure_cons poolCfg fuel bad post hbs hd hp hfuel
    obtain ⟨hc2, hn2, hb2⟩ := serialized_healthy_list poolCfg fuel post hpost hfuel
    refine ⟨?_, ?_, ?_⟩
    · rw [hc1, htail]
      simpa [connErrorCount] using hc2
    · rw [hn1, htail]
      simpa [storedStatsNames] using hn2
    · rw [hb1, htail]
      simpa [anyBlocked] using hb2
  · intro hd
    have htail := serialized_dial_never_cons poolCfg fuel bad post hbs hd
    obtain ⟨hbc, hbn⟩ := blocked_map_facts post
    refine ⟨?_, ?_, ?_⟩
    · rw [hc1, htail]
      simp [connErrorCount]
    · rw [hn1, htail]
      simp [storedStatsNames]
    · rw [hb1, htail]
      simp [anyBlocked]

/-- A sample stats snapshot for concrete evaluations. -/
def statsEx : SessionStats := ⟨10, 2, 2, 0, 0, 12, "", ""⟩

/-- A database whose check fully succeeds. -/
def envGoodEx : DbEnv := ⟨"db2", "postgresql", fun _ => true, true, some statsEx⟩

/-- A database whose dial succeeds but whose verification ping fails. -/
def envBadPingEx : DbEnv := ⟨"db1", "mysql", fun _ => true, false, some statsEx⟩

/-- A database whose dial never succeeds. -/
def envBadDialEx : DbEnv := ⟨"db1", "mysql", fun _ => false, true, some statsEx⟩

theorem checkAllInstances_one_failure_witness :
    connErrorCount
      (checkAllInstancesSerialized pcEx 1 ([] ++ envBadPingEx :: [envGoodEx])) = 1 :=
  ((checkAllInstances_one_failure pcEx 1 [] [envGoodEx] envBadPingEx
      (by simp)
      (by intro e he; simp at he; subst he; exact ⟨by decide, rfl, rfl, rfl⟩)
      (by omega) (by decide)).1 ⟨rfl, rfl⟩).1

/-- At every fuel bound, the cycle over the schedule
`[envBadDialEx, envGoodEx]` — the dial-failing database's creation
granted the lock first, one healthy database behind it — records zero
`CONNECTION_ERROR` alert candidates. -/
def dialFailureNeverAlerts : Prop :=
  ∀ fuel : Nat,
    connErrorCount (checkAllInstancesSerialized pcEx fuel [envBadDialEx, envGoodEx]) = 0

/-- At every fuel bound, no database's statistics are stored in that
schedule: the healthy sibling starves on the creation lock the
dial-failing database holds. -/
def dialFailureStarvesSibling : Prop :=
  ∀ fuel : Nat,
    storedStatsNames (checkAllInstancesSerialized pcEx fuel [envBadDialEx, envGoodEx]) = []

/-- At every fuel bound, some task is still unfinished, so `g.Wait()`
never returns. -/
def dialFailureAlwaysBlocked : Prop :=
  ∀ fuel : Nat,
    anyBlocked (checkAllInstancesSerialized pcEx fuel [envBadDialEx, envGoodEx]) = true

/-- C4 (counterexample to the claim as stated): over two configured
databases where exactly one database's dial fails (persistently) and the
other succeeds, `CheckAllInstances` does *not* produce a
`CONNECTION_ERROR` alert candidate for the failing database — the dial is
retried with backoff forever, the candidate count stays 0 and the cycle
never finishes at every fuel bound; and in the schedule where the failing
creation holds the lock first, the healthy sibling's statistics are
never stored either. -/
theorem checkAllInstances_dial_failure_never_alerts :
    dialFailureNeverAlerts ∧ dialFailureStarvesSibling ∧ dialFailureAlwaysBlocked := by
  have hser : ∀ fuel : Nat,
      checkAllInstancesSerialized pcEx fuel [envBadDialEx, envGoodEx] =
        [("db1", CheckOutcome.blocked), ("db2", CheckOutcome.blocked)] := by
    intro fuel
    rw [serialized_dial_never_cons pcEx fuel envBadDialEx [envGoodEx]
      (by decide) (fun _ => rfl)]
    rfl
  refine ⟨fun fuel => ?_, fun fuel => ?_, fun fuel => ?_⟩
  · rw [hser fuel]; decide
  · rw [hser fuel]; decide
  · rw [hser fuel]; decide

/-! ## The connection pool (src/unnamed/part_001:111-361)

The pool's `map[string]*Connection` is embedded as an association list
from database name to a connection identity (a `Nat` drawn from the
fresh-identity counter `nextId`); `closed` records every identity on
which `Close()` has been called.  `healthy c` is the oracle outcome of
the liveness probe `conn.IsHealthy(...)` on connection `c`, and
`createOk` the oracle outcome of `NewConnection` (whether it returns at
all within the call; its retry behaviour is studied separately above).
Every mutation of the map happens inside an exclusive critical section
of the pool's lock in the source, so interleaved executions are
sequences of these atomic operations. -/

/-- The pool's mutable state. -/
structure PoolState where
  connections : List (String × Nat)
  nextId : Nat
  closed : List Nat
  deriving Repr, DecidableEq

/-- `NewPool`: empty map. -/
def emptyPool : PoolState := ⟨[], 0, []⟩

/-- `Pool.createConnection` (src/unnamed/part_001:155-175): under the
exclusive lock, re-check the map: a healthy existing connection is
returned as-is; an unhealthy one is closed (and left in the map if the
replacement `NewConnection` fails); otherwise a fresh connection is
created and stored under the name. -/
def createConnection (healthy : Nat → Bool) (createOk : Bool) (name : String)
    (st : PoolState) : Option Nat × PoolState :=
  match alookup st.connections name with
  | some c =>
    if healthy c then (some c, st)
    else
      let st1 : PoolState := { st with closed := c :: st.closed }
      if createOk then
        (some st1.nextId,
          { st1 with connections := aset st1.connections name st1.nextId,
                     nextId := st1.nextId + 1 })
      else (none, st1)
  | none =>
    if createOk then
      (some st.nextId,
        { st with connections := aset st.connections name st.nextId,
                  nextId := st.nextId + 1 })
    else (none, st)

/-- `Pool.removeConnection` (src/unnamed/part_001:177-186): under the
exclusive lock, close the named connection and delete it from the map. -/
def removeConnection (name : String) (st : PoolState) : PoolState :=
  match alookup st.connections name with
  | some c =>
    { st with connections := aerase st.connections name, closed := c :: st.closed }
  | none => st

/-- `Pool.GetConnection` (src/unnamed/part_001:137-153): probe the cached
connection; return it when healthy, otherwise evict it and fall through
to `createConnection`. -/
def getConnection (healthy : Nat → Bool) (createOk : Bool) (name : String)
    (st : PoolState) : Option Nat × PoolState :=
  match alookup st.connections name with
  | some c =>
    if healthy c then (some c, st)
    else createConnection healthy createOk name (removeConnection name st)
  | none => createConnection healthy createOk name st

/-- The state effect of `Pool.Close` (src/unnamed/part_001:296-310):
close every pooled connection and reset the map. -/
def poolCloseState (st : PoolState) : PoolState :=
  { connections := [], nextId := st.nextId,
    closed := st.connections.map Prod.snd ++ st.closed }

/-- Each pooled name is bound at most once. -/
def namesDistinct (st : PoolState) : Prop :=
  st.connections.Pairwise (fun p q => p.1 ≠ q.1)

/-- Every pooled connection identity predates the fresh counter. -/
def idsBounded (st : PoolState) : Prop :=
  ∀ p ∈ st.connections, p.2 < st.nextId

/-- The pool invariant. -/
def PoolInv (st : PoolState) : Prop := namesDistinct st ∧ idsBounded st

/-- Every connection that the operation taking `st` to `st'` removed (or
replaced) in the map has been closed by the time it is gone. -/
def evictedClosed (st st' : PoolState) : Prop :=
  ∀ p ∈ st.connections, p ∉ st'.connections → p.2 ∈ st'.closed

theorem mem_aset {β : Type} (l : List (String × β)) (k : String) (v : β)
    (p : String × β) (h : p ∈ aset l k v) : p = (k, v) ∨ p ∈ l := by
  induction l with
  | nil => simpa [aset] using h
  | cons q rest ih =>
      obtain ⟨k', v'⟩ := q
      by_cases hk : k' = k
      · simp only [aset, hk, if_true] at h
        rcases List.mem_cons.mp h with h | h
        · exact Or.inl h
        · exact Or.inr (List.mem_cons_of_mem _ h)
      · simp only [aset, hk, if_false] at h
        rcases List.mem_cons.mp h with h | h
        · exact Or.inr (h ▸ List.mem_cons_self _ _)
        · rcases ih h with h | h
          · exact Or.inl h
          · exact Or.inr (List.mem_cons_of_mem _ h)

theorem mem_aset_of_mem {β : Type} (l : List (String × β)) (k : String) (v : β)
    (p : String × β) (hp : p ∈ l) (hne : p.1 ≠ k) : p ∈ aset l k v := by
  induction l with
  | nil => simp at hp
  | cons q rest ih =>
      obtain ⟨k', v'⟩ := q
      rcases List.mem_cons.mp hp with h | h
      · by_cases hk : k' = k
        · exact absurd (by simp [h, hk]) hne
        · simp only [aset, hk, if_false]
          exact h ▸ List.mem_cons_self _ _
      · by_cases hk : k' = k
        · simp only [aset, hk, if_true]
          exact List.mem_cons_of_mem _ h
        · simp only [aset, hk, if_false]
          exact List.mem_cons_of_mem _ (ih h)

theorem aerase_sublist {β : Type} (l : List (String × β)) (k : String) :
    (aerase l k).Sublist l := by
  induction l with
  | nil => simp [aerase]
  | cons q rest ih =>
      obtain ⟨k', v'⟩ := q
      by_cases hk : k' = k
      · simp [aerase, hk]
      · simpa [aerase, hk] using List.Sublist.cons₂ (k', v') ih

theorem alookup_eq_none_of_forall_ne {β : Type} (l : List (String × β)) (k : String)
    (h : ∀ p ∈ l, p.1 ≠ k) : alookup l k = none := by
  induction l with
  | nil => rfl
  | cons q rest ih =>
      obtain ⟨k', v'⟩ := q
      have hk : k' ≠ k := h (k', v') (List.mem_cons_self _ _)
      simp only [alookup, hk, if_false]
      exact ih (fun p hp => h p (List.mem_cons_of_mem _ hp))

theorem mem_of_alookup_eq_some {β : Type} (l : List (String × β)) (k : String) (v : β)
    (h : alookup l k = some v) : (k, v) ∈ l := by
  induction l with
  | nil => simp [alookup] at h
  | cons q rest ih =>
      obtain ⟨k', v'⟩ := q
      by_cases hk : k' = k
      · simp only [alookup, hk, if_true, Option.some.injEq] at h
        subst hk; subst h; exact List.mem_cons_self _ _
      · simp only [alookup, hk, if_false] at h
        exact List.mem_cons_of_mem _ (ih h)

theorem forall_ne_of_alookup_eq_none {β : Type} (l : List (String × β)) (k : String)
    (h : alookup l k = none) : ∀ p ∈ l, p.1 ≠ k := by
  induction l with
  | nil => intro p hp; simp at hp
  | cons q rest ih =>
      obtain ⟨k', v'⟩ := q
      by_cases hk : k' = k
      · simp [alookup, hk] at h
      · simp only [alookup, hk, if_false] at h
        intro p hp
        rcases List.mem_cons.mp hp with hp | hp
        · simpa [hp] using hk
        · exact ih h p hp

theorem alookup_aerase_self {β : Type} (l : List (String × β)) (k : String)
    (hd : l.Pairwise (fun p q => p.1 ≠ q.1)) : alookup (aerase l k) k = none := by
  induction l with
  | nil => rfl
  | cons q rest ih =>
      obtain ⟨k', v'⟩ := q
      obtain ⟨hhead, htail⟩ := List.pairwise_cons.mp hd
      by_cases hk : k' = k
      · simp only [aerase, hk, if_true]
        exact alookup_eq_none_of_forall_ne rest k
          (fun p hp heq => hhead p hp (hk.trans heq.symm))
      · simp only [aerase, hk, if_false, alookup, ih htail]

theorem mem_eq_of_alookup {β : Type} (l : List (String × β)) (k : String) (v : β)
    (hd : l.Pairwise (fun p q => p.1 ≠ q.1)) (hl : alookup l k = some v)
    (p : String × β) (hp : p ∈ l) (hpk : p.1 = k) : p = (k, v) := by
  induction l with
  | nil => simp at hp
  | cons q rest ih =>
      obtain ⟨k', v'⟩ := q
      obtain ⟨hhead, htail⟩ := List.pairwise_cons.mp hd
      by_cases hk : k' = k
      · simp only [alookup, hk, if_true, Option.some.injEq] at hl
        rcases List.mem_cons.mp hp with hp | hp
        · rw [hp, hk, hl]
        · exact absurd (hk.trans hpk.symm) (hhead p hp)
      · simp only [alookup, hk, if_false] at hl
        rcases List.mem_cons.mp hp with hp | hp
        · exact absurd (by rw [hp] at hpk; exact hpk) hk
        · exact ih htail hl hp

theorem mem_of_not_mem_aerase {β : Type} (l : List (String × β)) (k : String)
    (p : String × β) (hp : p ∈ l) (hnot : p ∉ aerase l k) : p.1 = k := by
  induction l with
  | nil => simp at hp
  | cons q rest ih =>
      obtain ⟨k', v'⟩ := q
      by_cases hk : k' = k
      · rcases List.mem_cons.mp hp with hp | hp
        · rw [hp, hk]
        · exact absurd (by simpa [aerase, hk] using hp) hnot
      · rcases List.mem_cons.mp hp with hp | hp
        · exact absurd (by simp [aerase, hk, hp]) hnot
        · exact ih hp (fun hmem => hnot (by simp [aerase, hk, hmem]))

/-- C5: for a pooled name, `GetConnection` returns the cached connection
unchanged — twice in succession — when its liveness probe passes; when
the probe fails, the cached connection is closed and removed and the call
hands back the freshly created distinct connection, now cached under the
name. -/
theorem getConnection_cache_semantics
    (st : PoolState) (healthy : Nat → Bool) (createOk : Bool) (name : String)
    (c : Nat) (hinv : PoolInv st) (hc : alookup st.connections name = some c) :
    (healthy c = true →
      getConnection healthy createOk name st = (some c, st) ∧
      getConnection healthy createOk name
        (getConnection healthy createOk name st).2 = (some c, st)) ∧
    (healthy c = false → createOk = true →
      (getConnection healthy createOk name st).1 = some st.nextId ∧
      st.nextId ≠ c ∧
      c ∈ (getConnection healthy createOk name st).2.closed ∧
      alookup (getConnection healthy createOk name st).2.connections name =
        some st.nextId) := by
  obtain ⟨hdist, hbound⟩ := hinv
  constructor
  · intro hh
    have h1 : getConnection healthy createOk name st = (some c, st) := by
      unfold getConnection
      rw [hc]
      simp [hh]
    refine ⟨h1, ?_⟩
    rw [h1]
    exact h1
  · intro hh hok
    subst hok
    have hrm : removeConnection name st =
        { st with connections := aerase st.connections name,
                  closed := c :: st.closed } := by
      unfold removeConnection
      rw [hc]
    have hlook2 : alookup (aerase st.connections name) name = none :=
      alookup_aerase_self st.connections name hdist
    have hg : getConnection healthy true name st =
        (some st.nextId,
          { connections := aset (aerase st.connections name) name st.nextId,
            nextId := st.nextId + 1, closed := c :: st.closed }) := by
      unfold getConnection
      rw [hc]
      simp only [hh, Bool.false_eq_true, if_false, hrm]
      unfold createConnection
      rw [hlook2]
      simp
    have hlt : c < st.nextId := hbound (name, c) (mem_of_alookup_eq_some _ _ _ hc)
    refine ⟨by rw [hg], by omega, ?_, ?_⟩
    · rw [hg]
      exact List.mem_cons_self _ _
    · rw [hg]
      exact alookup_aset_self _ _ _

theorem getConnection_cache_semantics_witness :
    (getConnection (fun _ => false) true "db" ⟨[("db", 0)], 1, []⟩).1 = some 1 :=
  ((getConnection_cache_semantics ⟨[("db", 0)], 1, []⟩ (fun _ => false) true "db" 0
      ⟨by simp [namesDistinct], by simp [idsBounded]⟩ (by simp [alookup])).2
    rfl rfl).1

/-! ## Pool map invariant under interleaving (claim C6)

In the source every mutation of the pool's `map[string]*Connection`
happens inside one exclusive critical section of the pool's
reader/writer lock (`createConnection`, `removeConnection`, `Close`),
so any concurrent interleaving of pool operations is a sequence of these
atomic state transitions, in some order.  `HealthCheck` eviction spawns
`removeConnection` for each failing name (src/unnamed/part_001:285-288). -/

/-- One atomic pool mutation. -/
inductive PoolStep where
  | get (healthy : Nat → Bool) (createOk : Bool) (name : String)
  | create (healthy : Nat → Bool) (createOk : Bool) (name : String)
  | remove (name : String)
  /-- a `HealthCheck` goroutine evicting a probe-failing connection -/
  | healthEvict (name : String)
  | closeAll

/-- The state transition of one pool operation. -/
def applyStep (st : PoolState) : PoolStep → PoolState
  | .get healthy createOk name => (getConnection healthy createOk name st).2
  | .create healthy createOk name => (createConnection healthy createOk name st).2
  | .remove name => removeConnection name st
  | .healthEvict name => removeConnection name st
  | .closeAll => poolCloseState st

/-- Run a sequence of pool operations from the fresh pool of `NewPool`. -/
def runSteps (steps : List PoolStep) : PoolState :=
  steps.foldl applyStep emptyPool

theorem pairwise_keys_aset {β : Type} (l : List (String × β)) (k : String) (v : β)
    (hd : l.Pairwise (fun p q => p.1 ≠ q.1)) :
    (aset l k v).Pairwise (fun p q => p.1 ≠ q.1) := by
  induction l with
  | nil => simp [aset]
  | cons q rest ih =>
      obtain ⟨k', v'⟩ := q
      obtain ⟨hhead, htail⟩ := List.pairwise_cons.mp hd
      by_cases hk : k' = k
      · simp only [aset, hk, if_true]
        refine List.pairwise_cons.mpr ⟨?_, htail⟩
        intro p hp
        exact hk ▸ hhead p hp
      · simp only [aset, hk, if_false]
        refine List.pairwise_cons.mpr ⟨?_, ih htail⟩
        intro p hp
        rcases mem_aset rest k v p hp with h | h
        · rw [h]; exact hk
        · exact hhead p h

theorem poolInv_emptyPool : PoolInv emptyPool :=
  ⟨List.Pairwise.nil, by intro p hp; simp [emptyPool] at hp⟩

theorem poolInv_createConnection (healthy : Nat → Bool) (createOk : Bool)
    (name : String) (st : PoolState) (hinv : PoolInv st) :
    PoolInv (createConnection healthy createOk name st).2 := by
  obtain ⟨hdist, hbound⟩ := hinv
  have hfresh : ∀ p ∈ aset st.connections name st.nextId, p.2 < st.nextId + 1 := by
    intro p hp
    rcases mem_aset st.connections name st.nextId p hp with h | h
    · rw [h]; omega
    · exact Nat.lt_succ_of_lt (hbound p h)
  cases hc : alookup st.connections name with
  | none =>
      by_cases hok : createOk = true
      · have he : (createConnection healthy createOk name st).2 =
            { connections := aset st.connections name st.nextId,
              nextId := st.nextId + 1, closed := st.closed } := by
          unfold createConnection; rw [hc]; simp [hok]
        rw [he]
        exact ⟨pairwise_keys_aset _ _ _ hdist, hfresh⟩
      · have he : (createConnection healthy createOk name st).2 = st := by
          unfold createConnection; rw [hc]; simp [hok]
        rw [he]
        exact ⟨hdist, hbound⟩
  | some c =>
      by_cases hh : healthy c = true
      · have he : (createConnection healthy createOk name st).2 = st := by
          unfold createConnection; rw [hc]; simp [hh]
        rw [he]
        exact ⟨hdist, hbound⟩
      · by_cases hok : createOk = true
        · have he : (createConnection healthy createOk name st).2 =
              { connections := aset st.connections name st.nextId,
                nextId := st.nextId + 1, closed := c :: st.closed } := by
            unfold createConnection; rw [hc]; simp [hh, hok]
          rw [he]
          exact ⟨pairwise_keys_aset _ _ _ hdist, hfresh⟩
        · have he : (createConnection healthy createOk name st).2 =
              { st with closed := c :: st.closed } := by
            unfold createConnection; rw [hc]; simp [hh, hok]
          rw [he]
          exact ⟨hdist, hbound⟩

theorem poolInv_removeConnection (name : String) (st : PoolState)
    (hinv : PoolInv st) : PoolInv (removeConnection name st) := by
  obtain ⟨hdist, hbound⟩ := hinv
  cases hc : alookup st.connections name with
  | none =>
      have he : removeConnection name st = st := by
        unfold removeConnection; rw [hc]
      rw [he]
      exact ⟨hdist, hbound⟩
  | some c =>
      have he : removeConnection name st =
          { st with connections := aerase st.connections name,
                    closed := c :: st.closed } := by
        unfold removeConnection; rw [hc]
      rw [he]
      exact ⟨hdist.sublist (aerase_sublist _ _),
        fun p hp => hbound p ((aerase_sublist _ _).subset hp)⟩

theorem poolInv_getConnection (healthy : Nat → Bool) (createOk : Bool)
    (name : String) (st : PoolState) (hinv : PoolInv st) :
    PoolInv (getConnection healthy createOk name st).2 := by
  cases hc : alookup st.connections name with
  | none =>
      have he : getConnection healthy createOk name st =
          createConnection healthy createOk name st := by
        unfold getConnection; rw [hc]
      rw [he]
      exact poolInv_createConnection healthy createOk name st hinv
  | some c =>
      by_cases hh : healthy c = true
      · have he : (getConnection healthy createOk name st).2 = st := by
          unfold getConnection; rw [hc]; simp [hh]
        rw [he]
        exact hinv
      · have he : getConnection healthy createOk name st =
            createConnection healthy createOk name (removeConnection name st) := by
          unfold getConnection; rw [hc]; simp [hh]
        rw [he]
        exact poolInv_createConnection healthy createOk name _
          (poolInv_removeConnection name st hinv)

theorem poolInv_poolCloseState (st : PoolState) : PoolInv (poolCloseState st) :=
  ⟨List.Pairwise.nil, by intro p hp; simp [poolCloseState] at hp⟩

theorem poolInv_applyStep (st : PoolState) (s : PoolStep) (hinv : PoolInv st) :
    PoolInv (applyStep st s) := by
  cases s with
  | get healthy createOk name => exact poolInv_getConnection healthy createOk name st hinv
  | create healthy createOk name => exact poolInv_createConnection healthy createOk name st hinv
  | remove name => exact poolInv_removeConnection name st hinv
  | healthEvict name => exact poolInv_removeConnection name st hinv
  | closeAll => exact poolInv_poolCloseState st

theorem poolInv_foldl (steps : List PoolStep) :
    ∀ st : PoolState, PoolInv st → PoolInv (steps.foldl applyStep st) := by
  induction steps with
  | nil => intro st h; simpa using h
  | cons s rest ih => intro st h; exact ih _ (poolInv_applyStep st s h)

theorem closed_subset_createConnection (healthy : Nat → Bool) (createOk : Bool)
    (name : String) (st : PoolState) :
    st.closed ⊆ (createConnection healthy createOk name st).2.closed := by
  cases hc : alookup st.connections name with
  | none =>
      by_cases hok : createOk = true
      · have he : (createConnection healthy createOk name st).2 =
            { connections := aset st.connections name st.nextId,
              nextId := st.nextId + 1, closed := st.closed } := by
          unfold createConnection; rw [hc]; simp [hok]
        rw [he]
        exact fun x hx => hx
      · have he : (createConnection healthy createOk name st).2 = st := by
          unfold createConnection; rw [hc]; simp [hok]
        rw [he]
        exact fun x hx => hx
  | some c =>
      by_cases hh : healthy c = true
      · have he : (createConnection healthy createOk name st).2 = st := by
          unfold createConnection; rw [hc]; simp [hh]
        rw [he]
        exact fun x hx => hx
      · by_cases hok : createOk = true
        · have he : (createConnection healthy createOk name st).2 =
              { connections := aset st.connections name st.nextId,
                nextId := st.nextId + 1, closed := c :: st.closed } := by
            unfold createConnection; rw [hc]; simp [hh, hok]
          rw [he]
          exact fun x hx => List.mem_cons_of_mem _ hx
        · have he : (createConnection healthy createOk name st).2 =
              { st with closed := c :: st.closed } := by
            unfold createConnection; rw [hc]; simp [hh, hok]
          rw [he]
          exact fun x hx => List.mem_cons_of_mem _ hx

theorem evictedClosed_createConnection (healthy : Nat → Bool) (createOk : Bool)
    (name : String) (st : PoolState) (hinv : PoolInv st) :
    evictedClosed st (createConnection healthy createOk name st).2 := by
  obtain ⟨hdist, hbound⟩ := hinv
  cases hc : alookup st.connections name with
  | none =>
      by_cases hok : createOk = true
      · have he : (createConnection healthy createOk name st).2 =
            { connections := aset st.connections name st.nextId,
              nextId := st.nextId + 1, closed := st.closed } := by
          unfold createConnection; rw [hc]; simp [hok]
        intro p hp hnot
        rw [he] at hnot
        exact absurd
          (mem_aset_of_mem _ _ _ p hp (forall_ne_of_alookup_eq_none _ _ hc p hp)) hnot
      · have he : (createConnection healthy createOk name st).2 = st := by
          unfold createConnection; rw [hc]; simp [hok]
        intro p hp hnot
        rw [he] at hnot
        exact absurd hp hnot
  | some c =>
      by_cases hh : healthy c = true
      · have he : (createConnection healthy createOk name st).2 = st := by
          unfold createConnection; rw [hc]; simp [hh]
        intro p hp hnot
        rw [he] at hnot
        exact absurd hp hnot
      · by_cases hok : createOk = true
        · have he : (createConnection healthy createOk name st).2 =
              { connections := aset st.connections name st.nextId,
                nextId := st.nextId + 1, closed := c :: st.closed } := by
            unfold createConnection; rw [hc]; simp [hh, hok]
          intro p hp hnot
          rw [he] at hnot ⊢
          by_cases hpk : p.1 = name
          · have hpc : p = (name, c) :=
              mem_eq_of_alookup st.connections name c hdist hc p hp hpk
            rw [hpc]
            exact List.mem_cons_self _ _
          · exact absurd (mem_aset_of_mem _ _ _ p hp hpk) hnot
        · have he : (createConnection healthy createOk name st).2 =
              { st with closed := c :: st.closed } := by
            unfold createConnection; rw [hc]; simp [hh, hok]
          intro p hp hnot
          rw [he] at hnot
          exact absurd hp hnot

theorem evictedClosed_removeConnection (name : String) (st : PoolState)
    (hinv : PoolInv st) : evictedClosed st (removeConnection name st) := by
  obtain ⟨hdist, hbound⟩ := hinv
  cases hc : alookup st.connections name with
  | none =>
      have he : removeConnection name st = st := by
        unfold removeConnection; rw [hc]
      intro p hp hnot
      rw [he] at hnot
      exact absurd hp hnot
  | some c =>
      have he : removeConnection name st =
          { st with connections := aerase st.connections name,
                    closed := c :: st.closed } := by
        unfold removeConnection; rw [hc]
      intro p hp hnot
      rw [he] at hnot ⊢
      have hpk : p.1 = name := mem_of_not_mem_aerase st.connections name p hp hnot
      have hpc : p = (name, c) :=
        mem_eq_of_alookup st.connections name c hdist hc p hp hpk
      rw [hpc]
      exact List.mem_cons_self _ _

theorem evictedClosed_getConnection (healthy : Nat → Bool) (createOk : Bool)
    (name : String) (st : PoolState) (hinv : PoolInv st) :
    evictedClosed st (getConnection healthy createOk name st).2 := by
  cases hc : alookup st.connections name with
  | none =>
      have he : getConnection healthy createOk name st =
          createConnection healthy createOk name st := by
        unfold getConnection; rw [hc]
      rw [he]
      exact evictedClosed_createConnection healthy createOk name st hinv
  | some c =>
      by_cases hh : healthy c = true
      · have he : (getConnection healthy createOk name st).2 = st := by
          unfold getConnection; rw [hc]; simp [hh]
        intro p hp hnot
        rw [he] at hnot
        exact absurd hp hnot
      · have he : getConnection healthy createOk name st =
            createConnection healthy createOk name (removeConnection name st) := by
          unfold getConnection; rw [hc]; simp [hh]
        rw [he]
        intro p hp hnot
        by_cases hmem : p ∈ (removeConnection name st).connections
        · exact evictedClosed_createConnection healthy createOk name
            (removeConnection name st) (poolInv_removeConnection name st hinv)
            p hmem hnot
        · exact closed_subset_createConnection healthy createOk name
            (removeConnection name st)
            (evictedClosed_removeConnection name st hinv p hp hmem)

theorem evictedClosed_poolCloseState (st : PoolState) :
    evictedClosed st (poolCloseState st) := by
  intro p hp _
  exact List.mem_append_left _ (List.mem_map_of_mem Prod.snd hp)

theorem evictedClosed_applyStep (st : PoolState) (s : PoolStep)
    (hinv : PoolInv st) : evictedClosed st (applyStep st s) := by
  cases s with
  | get healthy createOk name =>
      exact evictedClosed_getConnection healthy createOk name st hinv
  | create healthy createOk name =>
      exact evictedClosed_createConnection healthy createOk name st hinv
  | remove name => exact evictedClosed_removeConnection name st hinv
  | healthEvict name => exact evictedClosed_removeConnection name st hinv
  | closeAll => exact evictedClosed_poolCloseState st

/-- C6: along every interleaving of pool operations — `GetConnection`,
`createConnection`, `removeConnection`, `HealthCheck` eviction and
`Close`, each an atomic critical section of the pool's lock — every
reachable pool state binds each database name to at most one live
connection (and pooled identities stay below the freshness counter),
and whatever connection the next operation replaces or evicts is closed
by the time it has left the map. -/
theorem pool_at_most_one_connection_per_name (steps : List PoolStep) :
    PoolInv (runSteps steps) ∧
    ∀ s : PoolStep, evictedClosed (runSteps steps) (applyStep (runSteps steps) s) := by
  have hinv : PoolInv (runSteps steps) := poolInv_foldl steps emptyPool poolInv_emptyPool
  exact ⟨hinv, fun s => evictedClosed_applyStep (runSteps steps) s hinv⟩

theorem pool_at_most_one_connection_per_name_witness :
    PoolInv (runSteps [PoolStep.create (fun _ => true) true "db",
      PoolStep.get (fun _ => false) true "db"]) :=
  (pool_at_most_one_connection_per_name
    [PoolStep.create (fun _ => true) true "db",
     PoolStep.get (fun _ => false) true "db"]).1

/-! ## StatsProvider variants
(internal/database/postgresql.go:46-53, internal/database/mysql.go:46-51) -/

/-- The field assignments of `PostgreSQLStatsProvider.GetSessionStats`
applied to a successfully scanned row `(active, idle, idle_in_txn,
waiting, total)`; the database name and timestamp are stamped later by
`Connection.GetSessionStats`. -/
def pgSessionStats (active idle idleInTxn waiting total : Int) : SessionStats :=
  { active := active, inactive := idle + idleInTxn, idle := idle,
    idleInTxn := idleInTxn, waiting := waiting, total := total,
    databaseName := "", timestamp := "" }

/-- The field assignments of `MySQLStatsProvider.GetSessionStats` applied
to a successfully scanned row `(idle, active, waiting, total)`; MySQL has
no idle-in-transaction session state. -/
def mysqlSessionStats (idle active waiting total : Int) : SessionStats :=
  { active := active, inactive := idle, idle := idle, idleInTxn := 0,
    waiting := waiting, total := total, databaseName := "", timestamp := "" }

/-- C9: every `SessionStats` a provider returns satisfies
`Inactive = Idle + IdleInTxn`: the postgresql variant computes `Inactive`
as the sum of its idle and idle-in-transaction counts, and the mysql
variant sets `Inactive` equal to `Idle` and `IdleInTxn` to exactly 0. -/
theorem sessionStats_inactive_decomposition
    (active idle idleInTxn waiting total : Int) :
    (pgSessionStats active idle idleInTxn waiting total).inactive =
      (pgSessionStats active idle idleInTxn waiting total).idle +
        (pgSessionStats active idle idleInTxn waiting total).idleInTxn ∧
    (mysqlSessionStats idle active waiting total).inactive =
      (mysqlSessionStats idle active waiting total).idle ∧
    (mysqlSessionStats idle active waiting total).idleInTxn = 0 ∧
    (mysqlSessionStats idle active waiting total).inactive =
      (mysqlSessionStats idle active waiting total).idle +
        (mysqlSessionStats idle active waiting total).idleInTxn := by
  refine ⟨rfl, rfl, rfl, by simp [mysqlSessionStats]⟩

/-! ## Claim C10: `DatabaseMonitor.Close` (monitor.go:274-288) -/

/-- The `lastErr` computed by `Pool.Close` (src/unnamed/part_001:296-310):
iterate over the pooled connections, keeping the most recent non-nil
close error (`closeErr c` is the oracle outcome of `conn.Close()` on
connection `c`). -/
def poolCloseErr (closeErr : Nat → Option String) (st : PoolState) : Option String :=
  st.connections.foldl
    (fun acc p =>
      match closeErr p.2 with
      | some e => some e
      | none => acc)
    none

/-- `Pool.Close`: best-effort close of every pooled connection, the map
cleared regardless, surfacing the last error. -/
def poolClose (closeErr : Nat → Option String) (st : PoolState) :
    Option String × PoolState :=
  (poolCloseErr closeErr st, poolCloseState st)

/-- The monitor's long-lived mutable maps (`lastStats`, `alertCounts`). -/
structure MonitorState where
  lastStats : List (String × SessionStats)
  alertCounts : AlertCounts
  deriving Repr, DecidableEq

/-- `DatabaseMonitor.Close` (monitor.go:274-288): close the pool; on a
pool error return it at once, leaving `lastStats` and `alertCounts` as
they were; only on success replace both maps by fresh empty maps. -/
def monitorClose (closeErr : Nat → Option String) (mst : MonitorState)
    (pst : PoolState) : Option String × MonitorState × PoolState :=
  let r := poolClose closeErr pst
  match r.1 with
  | some e => (some e, mst, r.2)
  | none => (none, ⟨[], []⟩, r.2)

/-- C10: `DatabaseMonitor.Close` returns exactly the pool's close error,
and the last-stats cache and alert counters survive unchanged when that
error is present — they are reset to empty maps exactly when the pool
closed without error. -/
theorem monitorClose_clears_only_on_success (closeErr : Nat → Option String)
    (mst : MonitorState) (pst : PoolState) :
    (monitorClose closeErr mst pst).1 = poolCloseErr closeErr pst ∧
    (monitorClose closeErr mst pst).2.1 =
      (if (poolCloseErr closeErr pst).isSome = true then mst
       else ⟨[], []⟩) := by
  unfold monitorClose poolClose
  cases h : poolCloseErr closeErr pst <;> simp [h]

end DbMon
